import Mathlib

/-!
Shallow embedding of `annotation_stats.py`: the transcript
annotation-confidence classification pipeline.  Python strings are
modelled as `List Char`, Python ints as `Int`, Python dicts as
insertion-ordered association lists, Python floats (only the repeat
coverage fractions reach the classification logic) as `ℚ`, and a raised
`ValueError` as `Except.error`.
-/

deriving instance DecidableEq for Except

/-- Characters are the unit of our Python-string model. -/
abbrev PyStr := List Char

/-- Conversion from a Lean string literal to the `List Char` model. -/
def pstr (s : String) : PyStr := s.data

/-- Model of Python `str.split(sep)` for a one-character separator:
`"".split(sep) == [""]`, adjacent separators yield empty pieces. -/
def pySplit (sep : Char) : PyStr → List PyStr
  | [] => [[]]
  | c :: cs =>
    let r := pySplit sep cs
    if c == sep then [] :: r
    else
      match r with
      | h :: t => (c :: h) :: t
      | [] => [[c]]

/-- Whitespace characters recognized by Python `str.strip()` (ASCII part). -/
def isPySpace (c : Char) : Bool :=
  c == ' ' || c == '\t' || c == '\n' || c == '\r' || c == '\x0b' || c == '\x0c'

/-- Model of Python `str.strip()`: drop leading and trailing whitespace. -/
def pyStrip (s : PyStr) : PyStr :=
  ((s.dropWhile isPySpace).reverse.dropWhile isPySpace).reverse

/-- Decimal digit run to a number; `none` when empty or a non-digit occurs. -/
def digitsToNat : PyStr → Option Nat
  | [] => none
  | [c] => if c.isDigit then some (c.toNat - '0'.toNat) else none
  | c :: cs =>
    if c.isDigit then
      (digitsToNat cs).map (fun n => (c.toNat - '0'.toNat) * 10 ^ cs.length + n)
    else none

/-- Model of Python `int(s)` for ASCII decimal strings: optional surrounding
whitespace, optional single sign, then digits; `none` models `ValueError`. -/
def pyInt? (s : PyStr) : Option Int :=
  match pyStrip s with
  | '-' :: rest => (digitsToNat rest).map (fun n => -(n : Int))
  | '+' :: rest => (digitsToNat rest).map (fun n => (n : Int))
  | t => (digitsToNat t).map (fun n => (n : Int))

/-- Exception model: the only exception the embedded code can raise. -/
inductive PyErr where
  | valueError : PyErr
deriving Repr, DecidableEq

/-- Model of Python `int(s)` raising `ValueError` on malformed input. -/
def pyInt (s : PyStr) : Except PyErr Int :=
  match pyInt? s with
  | some n => Except.ok n
  | none => Except.error PyErr.valueError

/-- Python dicts are modelled as association lists in insertion order. -/
abbrev PyDict (α : Type) := List (PyStr × α)

/-- Model of `d[k]` lookup (`d.get(k)`): first entry with the key; keys built
through `dictSet` are unique, so first match is the binding. -/
def dictGet {α : Type} (d : PyDict α) (k : PyStr) : Option α :=
  (d.find? (fun p => p.1 == k)).map Prod.snd

/-- Model of `k in d`. -/
def dictHas {α : Type} (d : PyDict α) (k : PyStr) : Bool :=
  d.any (fun p => p.1 == k)

/-- Model of `d[k] = v`: an existing binding is overwritten in place keeping
its position; a new key is appended at the end (insertion order). -/
def dictSet {α : Type} (d : PyDict α) (k : PyStr) (v : α) : PyDict α :=
  if dictHas d k then d.map (fun p => if p.1 == k then (k, v) else p)
  else d ++ [(k, v)]

/-- Model of in-place mutation `f(d[k])` of the value bound to `k`. -/
def dictUpdate {α : Type} (d : PyDict α) (k : PyStr) (f : α → α) : PyDict α :=
  d.map (fun p => if p.1 == k then (p.1, f p.2) else p)

/-- Transcript record built by `parse_gff3` for each registered `mRNA` row. -/
structure Transcript where
  GeneID : PyStr
  Chrom : PyStr
  Start : Int
  End : Int
  Strand : PyStr
  Exons : List (Int × Int)
  CDS : List (Int × Int)
  UTR5 : List (Int × Int)
  UTR3 : List (Int × Int)
deriving Repr, DecidableEq

/-- Result of parsing the semicolon-separated attribute column: the list of
`k=v` pairs in order (the Python dict comprehension keeps the last binding
of a duplicate key; `attrGet` looks up accordingly).  A fragment containing
`=` that does not split into exactly two parts raises `ValueError`, exactly
as unpacking `k, v = field.split("=")` does. -/
def parseAttrsList : List PyStr → Except PyErr (List (PyStr × PyStr))
  | [] => Except.ok []
  | f :: fs =>
    if f.contains '=' then
      match pySplit '=' f with
      | [k, v] => (parseAttrsList fs).map (fun rest => (k, v) :: rest)
      | _ => Except.error PyErr.valueError
    else parseAttrsList fs

/-- Attribute-column parser, `attributes.split(";")` fed to the pairs. -/
def parseAttrs (attributes : PyStr) : Except PyErr (List (PyStr × PyStr)) :=
  parseAttrsList (pySplit ';' attributes)

/-- Lookup in the attribute dict: the last binding of a key wins, matching
the Python dict comprehension that built it. -/
def attrGet (ps : List (PyStr × PyStr)) (k : PyStr) : Option PyStr :=
  (ps.reverse.find? (fun p => p.1 == k)).map Prod.snd

/-- Intermediate classification of one input line after field and attribute
parsing: skipped, a transcript declaration, or a child feature row (whose
coordinates stay unparsed, since Python only evaluates `int(start)` for a
child row after the `Parent in transcripts` test succeeded). -/
inductive LineKind where
  | skip : LineKind
  | mrna (id parent chrom : PyStr) (s e : Int) (strand : PyStr) : LineKind
  | child (feature_type parent startS endS : PyStr) : LineKind
deriving Repr, DecidableEq

/-- The four feature types treated as child rows of a transcript. -/
def isChildType (feature_type : PyStr) : Bool :=
  feature_type == pstr "exon" || feature_type == pstr "CDS" ||
    feature_type == pstr "five_prime_UTR" || feature_type == pstr "three_prime_UTR"

/-- Test for `line.startswith("#")`. -/
def isCommentLine (line : PyStr) : Bool :=
  match line with
  | c :: _ => c == '#'
  | [] => false

/-- Per-line front end of `parse_gff3`: comment and non-9-field lines skip;
attributes are parsed on every retained line; an `mRNA` row needs truthy
`ID` and `Parent` and integer coordinates; a child row needs a `Parent`
attribute.  Errors model the `ValueError`s `int()` and tuple unpacking can
raise. -/
def parseLine (line : PyStr) : Except PyErr LineKind :=
  if isCommentLine line then Except.ok LineKind.skip
  else
    match pySplit '\t' (pyStrip line) with
    | [chrom, _source, feature_type, start, stop, _score, strand, _phase, attributes] =>
      (parseAttrs attributes).bind (fun attr_dict =>
        if feature_type == pstr "mRNA" then
          match attrGet attr_dict (pstr "ID"), attrGet attr_dict (pstr "Parent") with
          | some i, some p =>
            if i == ([] : PyStr) || p == ([] : PyStr) then Except.ok LineKind.skip
            else
              (pyInt start).bind (fun s =>
                (pyInt stop).map (fun e => LineKind.mrna i p chrom s e strand))
          | _, _ => Except.ok LineKind.skip
        else if isChildType feature_type then
          match attrGet attr_dict (pstr "Parent") with
          | some p => Except.ok (LineKind.child feature_type p start stop)
          | none => Except.ok LineKind.skip
        else Except.ok LineKind.skip)
    | _ => Except.ok LineKind.skip

/-- Fresh transcript record registered for an `mRNA` declaration. -/
def freshTranscript (parent chrom : PyStr) (s e : Int) (strand : PyStr) : Transcript :=
  ⟨parent, chrom, s, e, strand, [], [], [], []⟩

/-- Append one interval to the list selected by the feature type. -/
def addInterval (t : Transcript) (feature_type : PyStr) (iv : Int × Int) : Transcript :=
  if feature_type == pstr "exon" then { t with Exons := t.Exons ++ [iv] }
  else if feature_type == pstr "CDS" then { t with CDS := t.CDS ++ [iv] }
  else if feature_type == pstr "five_prime_UTR" then { t with UTR5 := t.UTR5 ++ [iv] }
  else if feature_type == pstr "three_prime_UTR" then { t with UTR3 := t.UTR3 ++ [iv] }
  else t

/-- State effect of one classified line on the transcripts dict: an `mRNA`
overwrites any existing record for the same ID wholesale; a child row whose
parent is registered parses its coordinates (possibly raising) and appends
the interval; an unregistered parent skips. -/
def applyLine (transcripts : PyDict Transcript) :
    LineKind → Except PyErr (PyDict Transcript)
  | LineKind.skip => Except.ok transcripts
  | LineKind.mrna i p chrom s e strand =>
    Except.ok (dictSet transcripts i (freshTranscript p chrom s e strand))
  | LineKind.child feature_type p startS endS =>
    if dictHas transcripts p then
      (pyInt startS).bind (fun s =>
        (pyInt endS).map (fun e =>
          dictUpdate transcripts p (fun t => addInterval t feature_type (s, e))))
    else Except.ok transcripts

/-- One loop iteration of `parse_gff3` over one input line. -/
def processLine (transcripts : PyDict Transcript) (line : PyStr) :
    Except PyErr (PyDict Transcript) :=
  (parseLine line).bind (applyLine transcripts)

/-- The loop of `parse_gff3` over the remaining lines. -/
def processLines (transcripts : PyDict Transcript) :
    List PyStr → Except PyErr (PyDict Transcript)
  | [] => Except.ok transcripts
  | l :: ls => (processLine transcripts l).bind (fun st => processLines st ls)

/-- Feature-Model Builder: fold the file's lines over an empty dict. -/
def parse_gff3 (lines : List PyStr) : Except PyErr (PyDict Transcript) :=
  processLines [] lines

/-- TE-related InterPro identifiers, as listed in the source. -/
def TE_INTERPRO_IDS : List PyStr :=
  [pstr "IPR001207", pstr "IPR000477", pstr "IPR002559", pstr "IPR018289",
   pstr "IPR001584", pstr "IPR038717", pstr "IPR036397", pstr "IPR010994",
   pstr "IPR027122"]

/-- Trusted InterProScan sources, as listed in the source. -/
def TRUSTED_SOURCES : List PyStr :=
  [pstr "Pfam", pstr "SMART", pstr "SUPERFAMILY", pstr "PROSITE",
   pstr "ProSiteProfiles", pstr "PANTHER", pstr "Gene3D", pstr "SFLD",
   pstr "HAMAP"]

/-- The three mutually exclusive confidence-tier booleans. -/
structure ClassifyResult where
  high_conf : Bool
  low_conf : Bool
  no_annot : Bool
deriving Repr, DecidableEq

/-- Tier decision of the classification loop: empty hits give
no-annotation; otherwise the hit sources are intersected with the trusted
set and a nonempty intersection gives high confidence, else low. -/
def classify (hits : List (PyStr × PyStr)) : ClassifyResult :=
  if hits.isEmpty then ⟨false, false, true⟩
  else
    let sources := hits.map Prod.fst
    let trusted := sources.filter (fun s => TRUSTED_SOURCES.contains s)
    if !trusted.isEmpty then ⟨true, false, false⟩
    else ⟨false, true, false⟩

/-- TE-domain count: hits whose InterPro id is in the TE set. -/
def teCount (hits : List (PyStr × PyStr)) : Nat :=
  (hits.filter (fun p => TE_INTERPRO_IDS.contains p.2)).length

/-- Coding length: `sum(end - start + 1 for start, end in info["CDS"])`. -/
def cdsLength (cds : List (Int × Int)) : Int :=
  (cds.map (fun p => p.2 - p.1 + 1)).sum

/-- Hit lookup `protein_hits.get(tid, set())` with its empty default. -/
def hitsFor (protein_hits : PyDict (List (PyStr × PyStr))) (tid : PyStr) :
    List (PyStr × PyStr) :=
  (dictGet protein_hits tid).getD []

/-- Round-half-to-even on the integer grid, the tie rule of Python's
`round`. -/
def roundHalfEven (q : ℚ) : Int :=
  if q - Int.floor q < 1 / 2 then Int.floor q
  else if q - Int.floor q > 1 / 2 then Int.floor q + 1
  else if Int.floor q % 2 = 0 then Int.floor q else Int.floor q + 1

/-- Model of `round(x, 3)` on the rational value of the coverage fraction. -/
def pyRound3 (q : ℚ) : ℚ :=
  (roundHalfEven (q * 1000) : ℚ) / 1000

/-- Local variables computed by the per-transcript body of the main loop. -/
structure Computed where
  exon_count : Nat
  single_exon : Bool
  cds_len : Int
  prot_len : Nat
  rep : ℚ
  in_repeat : Bool
  has_5utr : Bool
  has_3utr : Bool
  high_conf : Bool
  low_conf : Bool
  no_annot : Bool
  te_count : Nat
deriving Repr, DecidableEq

/-- Per-transcript computation of the main loop (the Classification
Engine): derives every local of the loop body from the three indices and
one transcript record. -/
def computeTranscript (protein_lengths : PyDict Nat)
    (protein_hits : PyDict (List (PyStr × PyStr))) (repeat_cov : PyDict ℚ)
    (tid : PyStr) (info : Transcript) : Computed :=
  let exon_count := info.Exons.length
  let single_exon := exon_count == 1
  let cds_len := cdsLength info.CDS
  let prot_len := (dictGet protein_lengths tid).getD 0
  let rep := (dictGet repeat_cov tid).getD 0
  let in_repeat := decide (rep > 1 / 2)
  let has_5utr := !info.UTR5.isEmpty
  let has_3utr := !info.UTR3.isEmpty
  let hits := hitsFor protein_hits tid
  let c := classify hits
  let te_count := teCount hits
  ⟨exon_count, single_exon, cds_len, prot_len, rep, in_repeat, has_5utr,
   has_3utr, c.high_conf, c.low_conf, c.no_annot, te_count⟩

/-- CSV cell values as the Python `csv` writer receives them: the value's
runtime type is kept, so a boolean cell and a float cell are distinct even
when both print as a falsy value. -/
inductive Cell where
  | s : PyStr → Cell
  | i : Int → Cell
  | n : Nat → Cell
  | b : Bool → Cell
  | q : ℚ → Cell
deriving Repr, DecidableEq

/-- Header row of the detailed report. -/
def headerRow : List Cell :=
  [Cell.s (pstr "TranscriptID"), Cell.s (pstr "GeneID"), Cell.s (pstr "Chrom"),
   Cell.s (pstr "Start"), Cell.s (pstr "End"), Cell.s (pstr "Strand"),
   Cell.s (pstr "ExonCount"), Cell.s (pstr "SingleExon"), Cell.s (pstr "CDS_Length"),
   Cell.s (pstr "Protein_Length"), Cell.s (pstr "In_Repeat"),
   Cell.s (pstr "High_Confidence"), Cell.s (pstr "Low_Confidence"),
   Cell.s (pstr "No_Annotation"), Cell.s (pstr "Has_5UTR"), Cell.s (pstr "Has_3UTR"),
   Cell.s (pstr "TE_Domain_Count")]

/-- Detailed-report data row, in the exact order of the `writerow` call:
the eleventh cell (under the `In_Repeat` header) carries `round(repeat, 3)`,
not the boolean in-repeat flag. -/
def rowOf (tid : PyStr) (info : Transcript) (c : Computed) : List Cell :=
  [Cell.s tid, Cell.s info.GeneID, Cell.s info.Chrom, Cell.i info.Start,
   Cell.i info.End, Cell.s info.Strand, Cell.n c.exon_count,
   Cell.b c.single_exon, Cell.i c.cds_len, Cell.n c.prot_len,
   Cell.q (pyRound3 c.rep), Cell.b c.high_conf, Cell.b c.low_conf,
   Cell.b c.no_annot, Cell.b c.has_5utr, Cell.b c.has_3utr, Cell.n c.te_count]

/-- Summary counters in the order of the `summary` dict literal. -/
structure Summary where
  total_transcripts : Nat
  single_exon : Nat
  in_repeat : Nat
  high_conf : Nat
  low_conf : Nat
  no_annot : Nat
  has_5utr : Nat
  has_3utr : Nat
  has_te_domain : Nat
deriving Repr, DecidableEq

/-- Initial all-zero summary. -/
def summary0 : Summary := ⟨0, 0, 0, 0, 0, 0, 0, 0, 0⟩

/-- Counter updates of one loop iteration: total unconditionally, the
rest guarded by the transcript's computed flags. -/
def updateSummary (s : Summary) (c : Computed) : Summary :=
  { total_transcripts := s.total_transcripts + 1
    single_exon := s.single_exon + (if c.single_exon then 1 else 0)
    in_repeat := s.in_repeat + (if c.in_repeat then 1 else 0)
    high_conf := s.high_conf + (if c.high_conf then 1 else 0)
    low_conf := s.low_conf + (if c.low_conf then 1 else 0)
    no_annot := s.no_annot + (if c.no_annot then 1 else 0)
    has_5utr := s.has_5utr + (if c.has_5utr then 1 else 0)
    has_3utr := s.has_3utr + (if c.has_3utr then 1 else 0)
    has_te_domain := s.has_te_domain + (if c.te_count ≥ 1 then 1 else 0) }

/-- Detailed report: header plus one row per transcript, in dict
(insertion) order. -/
def detailedReport (transcripts : PyDict Transcript) (protein_lengths : PyDict Nat)
    (protein_hits : PyDict (List (PyStr × PyStr))) (repeat_cov : PyDict ℚ) :
    List (List Cell) :=
  headerRow ::
    transcripts.map (fun p =>
      rowOf p.1 p.2 (computeTranscript protein_lengths protein_hits repeat_cov p.1 p.2))

/-- Summary counters after folding every transcript of the run. -/
def finalSummary (transcripts : PyDict Transcript) (protein_lengths : PyDict Nat)
    (protein_hits : PyDict (List (PyStr × PyStr))) (repeat_cov : PyDict ℚ) :
    Summary :=
  transcripts.foldl
    (fun s p => updateSummary s (computeTranscript protein_lengths protein_hits repeat_cov p.1 p.2))
    summary0

/-- Summary report rows, `Metric, Count` header then the counters in the
fixed order of `summary.items()`. -/
def summaryReport (s : Summary) : List (PyStr × Nat) :=
  [(pstr "total_transcripts", s.total_transcripts),
   (pstr "single_exon", s.single_exon),
   (pstr "in_repeat", s.in_repeat),
   (pstr "high_conf", s.high_conf),
   (pstr "low_conf", s.low_conf),
   (pstr "no_annotation", s.no_annot),
   (pstr "has_5utr", s.has_5utr),
   (pstr "has_3utr", s.has_3utr),
   (pstr "has_te_domain", s.has_te_domain)]

/-- Both emitted reports as one deterministic function of the four inputs
of the classification phase. -/
def buildReports (transcripts : PyDict Transcript) (protein_lengths : PyDict Nat)
    (protein_hits : PyDict (List (PyStr × PyStr))) (repeat_cov : PyDict ℚ) :
    List (List Cell) × List (PyStr × Nat) :=
  (detailedReport transcripts protein_lengths protein_hits repeat_cov,
   summaryReport (finalSummary transcripts protein_lengths protein_hits repeat_cov))

/-! ### Helper lemmas -/

theorem classify_cases (hits : List (PyStr × PyStr)) :
    classify hits = ⟨false, false, true⟩ ∨ classify hits = ⟨true, false, false⟩ ∨
      classify hits = ⟨false, true, false⟩ := by
  rw [classify]
  split
  · exact Or.inl rfl
  · dsimp only
    split
    · exact Or.inr (Or.inl rfl)
    · exact Or.inr (Or.inr rfl)

theorem classify_nil : classify [] = ⟨false, false, true⟩ := rfl

theorem classify_no_annot_iff (hits : List (PyStr × PyStr)) :
    (classify hits).no_annot = true ↔ hits = [] := by
  rw [classify]
  split
  · next h => simp [List.isEmpty_iff.mp h]
  · next h =>
    dsimp only
    constructor
    · intro hc
      exact absurd hc (by split <;> simp)
    · intro hnil
      exact absurd (by simp [hnil]) h

theorem trusted_filter_iff (hits : List (PyStr × PyStr)) :
    ((!((hits.map Prod.fst).filter (fun s => TRUSTED_SOURCES.contains s)).isEmpty) = true) ↔
      ∃ p ∈ hits, p.1 ∈ TRUSTED_SOURCES := by
  simp [List.isEmpty_iff, List.filter_eq_nil_iff, List.elem_iff]

theorem classify_high_iff (hits : List (PyStr × PyStr)) :
    (classify hits).high_conf = true ↔
      hits ≠ [] ∧ ∃ p ∈ hits, p.1 ∈ TRUSTED_SOURCES := by
  rw [classify]
  split
  · next h =>
    simp [List.isEmpty_iff.mp h]
  · next h =>
    have hne : hits ≠ [] := by
      intro hnil
      exact absurd (by simp [hnil]) h
    dsimp only
    split
    · next htr =>
      constructor
      · intro _
        exact ⟨hne, (trusted_filter_iff hits).mp htr⟩
      · intro _
        rfl
    · next htr =>
      have : ¬∃ p ∈ hits, p.1 ∈ TRUSTED_SOURCES :=
        fun hex => htr ((trusted_filter_iff hits).mpr hex)
      simp [this]

theorem classify_exactly_one (hits : List (PyStr × PyStr)) :
    (((if (classify hits).high_conf then 1 else 0)
      + (if (classify hits).low_conf then 1 else 0)
      + (if (classify hits).no_annot then 1 else 0) : Nat)) = 1 := by
  rcases classify_cases hits with h | h | h <;> rw [h] <;> decide

/-! ### C1: tier decision -/

/-- C1: for every transcript, an absent or empty domain-hit set gives
no-annotation; otherwise the tier is high-confidence exactly when some hit
source is trusted (further untrusted hits notwithstanding), else
low-confidence; exactly one of the three tier booleans holds. -/
theorem tier_decision (protein_hits : PyDict (List (PyStr × PyStr))) (tid : PyStr) :
    (dictGet protein_hits tid = none ∨ hitsFor protein_hits tid = [] →
      classify (hitsFor protein_hits tid) = ⟨false, false, true⟩)
    ∧ (hitsFor protein_hits tid ≠ [] →
        (((classify (hitsFor protein_hits tid)).high_conf = true) ↔
          ∃ p ∈ hitsFor protein_hits tid, p.1 ∈ TRUSTED_SOURCES)
        ∧ (classify (hitsFor protein_hits tid)).low_conf
            = !(classify (hitsFor protein_hits tid)).high_conf
        ∧ (classify (hitsFor protein_hits tid)).no_annot = false)
    ∧ (((if (classify (hitsFor protein_hits tid)).high_conf then 1 else 0)
        + (if (classify (hitsFor protein_hits tid)).low_conf then 1 else 0)
        + (if (classify (hitsFor protein_hits tid)).no_annot then 1 else 0) : Nat)) = 1 := by
  refine ⟨?_, ?_, classify_exactly_one _⟩
  · intro h
    have hnil : hitsFor protein_hits tid = [] := by
      rcases h with h | h
      · simp [hitsFor, h]
      · exact h
    rw [hnil, classify_nil]
  · intro hne
    refine ⟨⟨fun hh => ((classify_high_iff _).mp hh).2,
            fun hex => (classify_high_iff _).mpr ⟨hne, hex⟩⟩, ?_, ?_⟩
    · rcases classify_cases (hitsFor protein_hits tid) with h | h | h
      · exact absurd ((classify_no_annot_iff _).mp (by rw [h])) hne
      · rw [h]
        rfl
      · rw [h]
        rfl
    · rcases classify_cases (hitsFor protein_hits tid) with h | h | h
      · exact absurd ((classify_no_annot_iff _).mp (by rw [h])) hne
      · rw [h]
      · rw [h]

/-- Witness for C1 at a concrete input: the absent-lookup case. -/
theorem tier_decision_witness :
    classify (hitsFor ([] : PyDict (List (PyStr × PyStr))) (pstr "T1")) =
      ⟨false, false, true⟩ :=
  (tier_decision [] (pstr "T1")).1 (Or.inl rfl)

/-! ### C2: summary counters partition -/

theorem computed_tier_sum (plens : PyDict Nat) (phits : PyDict (List (PyStr × PyStr)))
    (cov : PyDict ℚ) (tid : PyStr) (info : Transcript) :
    (((if (computeTranscript plens phits cov tid info).high_conf then 1 else 0)
      + (if (computeTranscript plens phits cov tid info).low_conf then 1 else 0)
      + (if (computeTranscript plens phits cov tid info).no_annot then 1 else 0) : Nat)) = 1 :=
  classify_exactly_one (hitsFor phits tid)

theorem finalSummary_partition_aux (plens : PyDict Nat)
    (phits : PyDict (List (PyStr × PyStr))) (cov : PyDict ℚ) :
    ∀ (l : PyDict Transcript) (s : Summary),
      s.high_conf + s.low_conf + s.no_annot = s.total_transcripts →
      (l.foldl (fun s p => updateSummary s (computeTranscript plens phits cov p.1 p.2)) s).high_conf
        + (l.foldl (fun s p => updateSummary s (computeTranscript plens phits cov p.1 p.2)) s).low_conf
        + (l.foldl (fun s p => updateSummary s (computeTranscript plens phits cov p.1 p.2)) s).no_annot
        = (l.foldl (fun s p => updateSummary s (computeTranscript plens phits cov p.1 p.2)) s).total_transcripts := by
  intro l
  induction l with
  | nil => intro s hs; exact hs
  | cons hd tl ih =>
    intro s hs
    apply ih
    have h1 := computed_tier_sum plens phits cov hd.1 hd.2
    simp only [updateSummary]
    omega

/-- C2: after folding all per-transcript records, the three tier counters
sum to the total-transcripts counter, for every input of the run. -/
theorem summary_partition (transcripts : PyDict Transcript) (plens : PyDict Nat)
    (phits : PyDict (List (PyStr × PyStr))) (cov : PyDict ℚ) :
    (finalSummary transcripts plens phits cov).high_conf
      + (finalSummary transcripts plens phits cov).low_conf
      + (finalSummary transcripts plens phits cov).no_annot
      = (finalSummary transcripts plens phits cov).total_transcripts :=
  finalSummary_partition_aux plens phits cov transcripts summary0 rfl

/-! ### C5: repeat-overlap lookup and strict threshold -/

/-- Transcript record with no intervals, used to instantiate witnesses. -/
def tEmpty : Transcript :=
  ⟨pstr "G", pstr "c", 1, 2, pstr "+", [], [], [], []⟩

/-- C5: the repeat fraction is looked up with default 0, and the in-repeat
flag holds exactly when the fraction strictly exceeds 1/2; exactly 1/2 is
not in-repeat. -/
theorem repeat_threshold (plens : PyDict Nat) (phits : PyDict (List (PyStr × PyStr)))
    (cov : PyDict ℚ) (tid : PyStr) (info : Transcript) :
    (computeTranscript plens phits cov tid info).rep = (dictGet cov tid).getD 0
    ∧ (dictGet cov tid = none → (computeTranscript plens phits cov tid info).rep = 0)
    ∧ ((computeTranscript plens phits cov tid info).in_repeat = true ↔
        (dictGet cov tid).getD 0 > 1 / 2)
    ∧ ((dictGet cov tid).getD 0 = 1 / 2 →
        (computeTranscript plens phits cov tid info).in_repeat = false) := by
  refine ⟨rfl, ?_, ?_, ?_⟩
  · intro h
    show (dictGet cov tid).getD 0 = 0
    rw [h]
    rfl
  · show decide ((dictGet cov tid).getD 0 > 1 / 2) = true ↔ _
    exact decide_eq_true_iff
  · intro h
    show decide ((dictGet cov tid).getD 0 > 1 / 2) = false
    rw [h, decide_eq_false_iff_not]
    exact lt_irrefl _

/-- Witness for C5 at a concrete input: coverage exactly 1/2 is not
in-repeat. -/
theorem repeat_threshold_witness :
    (computeTranscript [] [] [(pstr "T1", (1 : ℚ) / 2)] (pstr "T1") tEmpty).in_repeat
      = false :=
  (repeat_threshold [] [] [(pstr "T1", (1 : ℚ) / 2)] (pstr "T1") tEmpty).2.2.2 rfl

/-! ### C6: TE-domain count -/

/-- C6: the TE-domain count is the number of hit entries whose domain id
is TE-associated; it is 0 on an empty hit set (then the tier is
no-annotation); duplicate-category hits each count, so the count can
exceed the number of distinct TE ids hit; and the T2 scenario (one
trusted-source hit plus one TE-id hit) is high-confidence with count 1. -/
theorem te_count_spec (plens : PyDict Nat) (phits : PyDict (List (PyStr × PyStr)))
    (cov : PyDict ℚ) (tid : PyStr) (info : Transcript) :
    (computeTranscript plens phits cov tid info).te_count
        = ((hitsFor phits tid).filter (fun p => decide (p.2 ∈ TE_INTERPRO_IDS))).length
    ∧ (hitsFor phits tid = [] → (computeTranscript plens phits cov tid info).te_count = 0
        ∧ (computeTranscript plens phits cov tid info).no_annot = true)
    ∧ teCount [(pstr "A", pstr "IPR001207"), (pstr "B", pstr "IPR001207")] = 2
    ∧ (([(pstr "A", pstr "IPR001207"), (pstr "B", pstr "IPR001207")].map Prod.snd).dedup.length = 1)
    ∧ (computeTranscript [] [(pstr "T2", [(pstr "Pfam", pstr "IPR999999"), (pstr "X", pstr "IPR001207")])]
          [] (pstr "T2") tEmpty).high_conf = true
    ∧ (computeTranscript [] [(pstr "T2", [(pstr "Pfam", pstr "IPR999999"), (pstr "X", pstr "IPR001207")])]
          [] (pstr "T2") tEmpty).te_count = 1 := by
  refine ⟨?_, ?_, by decide, by decide, by decide, by decide⟩
  · show teCount (hitsFor phits tid) = _
    unfold teCount
    congr 1
    apply List.filter_congr
    intro p _
    simp [List.elem_iff]
  · intro h
    constructor
    · show teCount (hitsFor phits tid) = 0
      rw [h]
      rfl
    · show (classify (hitsFor phits tid)).no_annot = true
      rw [h]
      rfl

/-- Witness for C6 at a concrete input: the empty-hit-set case. -/
theorem te_count_spec_witness :
    hitsFor ([] : PyDict (List (PyStr × PyStr))) (pstr "T") = []
    ∧ ((computeTranscript [] [] [] (pstr "T") tEmpty).te_count = 0
        ∧ (computeTranscript [] [] [] (pstr "T") tEmpty).no_annot = true) :=
  ⟨rfl, (te_count_spec [] [] [] (pstr "T") tEmpty).2.1 rfl⟩

/-! ### C8: coding length -/

theorem icc_card_sum (l : List (Int × Int)) (h : ∀ p ∈ l, p.1 ≤ p.2) :
    (l.map (fun p => ((Finset.Icc p.1 p.2).card : ℤ))).sum
      = (l.map (fun p => p.2 - p.1 + 1)).sum := by
  induction l with
  | nil => rfl
  | cons hd tl ih =>
    simp only [List.map_cons, List.sum_cons]
    rw [ih (fun p hp => h p (List.mem_cons_of_mem _ hp))]
    have hhd := h hd (List.mem_cons_self _ _)
    rw [Int.card_Icc]
    have ht : (((hd.2 + 1 - hd.1).toNat : ℤ)) = hd.2 + 1 - hd.1 :=
      Int.toNat_of_nonneg (by omega)
    rw [ht]
    ring

/-- C8: the coding length is the sum of `end - start + 1` over the coding
segments — equivalently, for well-ordered segments, the total number of
covered genomic positions — and the two-segment example yields 150. -/
theorem cds_length_spec (plens : PyDict Nat) (phits : PyDict (List (PyStr × PyStr)))
    (cov : PyDict ℚ) (tid : PyStr) (info : Transcript) :
    (computeTranscript plens phits cov tid info).cds_len
        = (info.CDS.map (fun p => p.2 - p.1 + 1)).sum
    ∧ ((∀ p ∈ info.CDS, p.1 ≤ p.2) →
        (computeTranscript plens phits cov tid info).cds_len
          = (info.CDS.map (fun p => ((Finset.Icc p.1 p.2).card : ℤ))).sum)
    ∧ (info.CDS = [(100, 199), (300, 349)] →
        (computeTranscript plens phits cov tid info).cds_len = 150) := by
  refine ⟨rfl, ?_, ?_⟩
  · intro h
    show cdsLength info.CDS = _
    rw [icc_card_sum info.CDS h]
    rfl
  · intro h
    show cdsLength info.CDS = 150
    rw [h]
    rfl

/-- Transcript record carrying the two-segment coding example. -/
def tCds : Transcript :=
  ⟨pstr "G", pstr "c", 1, 400, pstr "+", [], [(100, 199), (300, 349)], [], []⟩

/-- Witness for C8 at a concrete input: the two-segment example. -/
theorem cds_length_spec_witness :
    (∀ p ∈ tCds.CDS, p.1 ≤ p.2)
    ∧ (computeTranscript [] [] [] (pstr "T") tCds).cds_len = 150
    ∧ (computeTranscript [] [] [] (pstr "T") tCds).cds_len
        = (tCds.CDS.map (fun p => ((Finset.Icc p.1 p.2).card : ℤ))).sum :=
  ⟨by decide, (cds_length_spec [] [] [] (pstr "T") tCds).2.2 rfl,
   (cds_length_spec [] [] [] (pstr "T") tCds).2.1 (by decide)⟩

/-! ### C10: a duplicate mRNA declaration replaces the record wholesale -/

theorem dictSet_cons_ne {α : Type} (hd : PyStr × α) (tl : PyDict α) (k : PyStr) (v : α)
    (h : (hd.1 == k) = false) : dictSet (hd :: tl) k v = hd :: dictSet tl k v := by
  have hhas : dictHas (hd :: tl) k = dictHas tl k := by
    simp only [dictHas, List.any_cons, h, Bool.false_or]
  by_cases ha : dictHas tl k = true
  · rw [dictSet, dictSet, hhas, ha, if_pos rfl, if_pos rfl, List.map_cons, h]
    simp only [Bool.false_eq_true, if_false]
  · have ha' : dictHas tl k = false := by
      cases hx : dictHas tl k
      · rfl
      · exact absurd hx ha
    rw [dictSet, dictSet, hhas, ha', if_neg (by simp), if_neg (by simp), List.cons_append]

theorem dictGet_dictSet {α : Type} (d : PyDict α) (k : PyStr) (v : α) :
    dictGet (dictSet d k v) k = some v := by
  induction d with
  | nil =>
    rw [dictSet, if_neg (by simp [dictHas])]
    simp [dictGet, List.find?]
  | cons hd tl ih =>
    cases h : (hd.1 == k)
    · rw [dictSet_cons_ne hd tl k v h]
      rw [dictGet, List.find?_cons, h]
      exact ih
    · have hhas : dictHas (hd :: tl) k = true := by
        simp [dictHas, List.any_cons, h]
      rw [dictSet, hhas, if_pos rfl, List.map_cons, h, if_pos rfl]
      rw [dictGet, List.find?_cons]
      simp

/-- C10: any successfully parsed `mRNA` declaration overwrites the dict
entry for its ID with a fresh record carrying the new gene ID, span and
strand and empty interval lists — whatever had accumulated there before is
discarded. -/
theorem mrna_replaces (st : PyDict Transcript) (line : PyStr)
    (i parent chrom : PyStr) (s e : Int) (strand : PyStr)
    (h : parseLine line = Except.ok (LineKind.mrna i parent chrom s e strand)) :
    processLine st line
        = Except.ok (dictSet st i (freshTranscript parent chrom s e strand))
    ∧ dictGet (dictSet st i (freshTranscript parent chrom s e strand)) i
        = some (freshTranscript parent chrom s e strand)
    ∧ (freshTranscript parent chrom s e strand).Exons = []
    ∧ (freshTranscript parent chrom s e strand).CDS = []
    ∧ (freshTranscript parent chrom s e strand).UTR5 = []
    ∧ (freshTranscript parent chrom s e strand).UTR3 = [] := by
  refine ⟨?_, dictGet_dictSet st i _, rfl, rfl, rfl, rfl⟩
  unfold processLine
  rw [h]
  rfl

/-- State holding an already-registered `T1` with accumulated intervals. -/
def dupState : PyDict Transcript :=
  [(pstr "T1", ⟨pstr "G1", pstr "chr1", 5, 60, pstr "+", [(5, 60)], [(10, 39)], [], []⟩)]

/-- Witness for C10 at a concrete input: a second `T1` declaration wipes
the accumulated exon and CDS intervals. -/
theorem mrna_replaces_witness :
    processLine dupState (pstr "chr1\tsrc\tmRNA\t7\t80\t.\t-\t.\tID=T1;Parent=G2")
        = Except.ok (dictSet dupState (pstr "T1")
            (freshTranscript (pstr "G2") (pstr "chr1") 7 80 (pstr "-")))
    ∧ dictGet (dictSet dupState (pstr "T1")
          (freshTranscript (pstr "G2") (pstr "chr1") 7 80 (pstr "-"))) (pstr "T1")
        = some (freshTranscript (pstr "G2") (pstr "chr1") 7 80 (pstr "-"))
    ∧ (freshTranscript (pstr "G2") (pstr "chr1") 7 80 (pstr "-")).Exons = []
    ∧ (freshTranscript (pstr "G2") (pstr "chr1") 7 80 (pstr "-")).CDS = []
    ∧ (freshTranscript (pstr "G2") (pstr "chr1") 7 80 (pstr "-")).UTR5 = []
    ∧ (freshTranscript (pstr "G2") (pstr "chr1") 7 80 (pstr "-")).UTR3 = [] :=
  mrna_replaces dupState (pstr "chr1\tsrc\tmRNA\t7\t80\t.\t-\t.\tID=T1;Parent=G2")
    (pstr "T1") (pstr "G2") (pstr "chr1") 7 80 (pstr "-") (by decide)

/-! ### C3: exception behavior of the Feature-Model Builder -/

/-- Sufficient well-formedness of one input line for exception freedom:
comments aside, a 9-field line must have attribute fragments with at most
one `=` and, for the five feature types whose coordinates may be parsed,
integer `start`/`end` fields. -/
def lineSafe (line : PyStr) : Bool :=
  isCommentLine line ||
  (match pySplit '\t' (pyStrip line) with
   | [_chrom, _source, feature_type, start, stop, _score, _strand, _phase, attributes] =>
     (pySplit ';' attributes).all (fun f => !f.contains '=' || (pySplit '=' f).length == 2)
       && (!(feature_type == pstr "mRNA" || isChildType feature_type)
           || ((pyInt? start).isSome && (pyInt? stop).isSome))
   | _ => true)

theorem parseAttrsList_ok (fs : List PyStr)
    (h : fs.all (fun f => !f.contains '=' || (pySplit '=' f).length == 2) = true) :
    ∃ d, parseAttrsList fs = Except.ok d := by
  induction fs with
  | nil => exact ⟨[], rfl⟩
  | cons f fs ih =>
    rw [List.all_cons, Bool.and_eq_true] at h
    obtain ⟨hf, hrest⟩ := h
    obtain ⟨d, hd⟩ := ih hrest
    rw [parseAttrsList]
    cases hc : f.contains '='
    · rw [if_neg (by simp [hc])]
      exact ⟨d, hd⟩
    · rw [if_pos rfl]
      have hlen : (pySplit '=' f).length = 2 := by
        rw [hc] at hf
        simpa using hf
      match hsp : pySplit '=' f with
      | [k, v] =>
        rw [hd]
        exact ⟨(k, v) :: d, rfl⟩
      | [] => rw [hsp] at hlen; simp at hlen
      | [k] => rw [hsp] at hlen; simp at hlen
      | k :: v :: w :: rest => rw [hsp] at hlen; simp at hlen

theorem parseLine_safe (line : PyStr) (h : lineSafe line = true) :
    ∃ k, parseLine line = Except.ok k
      ∧ ∀ ft par ss es, k = LineKind.child ft par ss es →
          (pyInt? ss).isSome = true ∧ (pyInt? es).isSome = true := by
  rw [parseLine]
  rw [lineSafe] at h
  cases hc : isCommentLine line
  · rw [if_neg (by simp [hc])]
    rw [hc, Bool.false_or] at h
    generalize hsp : pySplit '\t' (pyStrip line) = L at h ⊢
    match L with
    | [] => exact ⟨LineKind.skip, rfl, fun _ _ _ _ hk => LineKind.noConfusion hk⟩
    | [a] => exact ⟨LineKind.skip, rfl, fun _ _ _ _ hk => LineKind.noConfusion hk⟩
    | [a, b] => exact ⟨LineKind.skip, rfl, fun _ _ _ _ hk => LineKind.noConfusion hk⟩
    | [a, b, c] => exact ⟨LineKind.skip, rfl, fun _ _ _ _ hk => LineKind.noConfusion hk⟩
    | [a, b, c, d] => exact ⟨LineKind.skip, rfl, fun _ _ _ _ hk => LineKind.noConfusion hk⟩
    | [a, b, c, d, e] => exact ⟨LineKind.skip, rfl, fun _ _ _ _ hk => LineKind.noConfusion hk⟩
    | [a, b, c, d, e, f] => exact ⟨LineKind.skip, rfl, fun _ _ _ _ hk => LineKind.noConfusion hk⟩
    | [a, b, c, d, e, f, g] => exact ⟨LineKind.skip, rfl, fun _ _ _ _ hk => LineKind.noConfusion hk⟩
    | [a, b, c, d, e, f, g, h8] => exact ⟨LineKind.skip, rfl, fun _ _ _ _ hk => LineKind.noConfusion hk⟩
    | a :: b :: c :: d :: e :: f :: g :: h8 :: i :: j :: rest =>
      exact ⟨LineKind.skip, rfl, fun _ _ _ _ hk => LineKind.noConfusion hk⟩
    | [chrom, source, feature_type, start, stop, score, strand, phase, attributes] =>
      dsimp only
      rw [Bool.and_eq_true] at h
      obtain ⟨hattrs, hints⟩ := h
      obtain ⟨d, hd⟩ := parseAttrsList_ok (pySplit ';' attributes) hattrs
      rw [show parseAttrs attributes = Except.ok d from hd]
      dsimp only [Except.bind]
      cases hm : (feature_type == pstr "mRNA")
      · rw [if_neg (by simp [hm])]
        cases hch : isChildType feature_type
        · rw [if_neg (by simp [hch])]
          exact ⟨LineKind.skip, rfl, fun _ _ _ _ hk => LineKind.noConfusion hk⟩
        · rw [if_pos rfl]
          have hsome : (pyInt? start).isSome = true ∧ (pyInt? stop).isSome = true := by
            rw [hm, hch] at hints
            simpa using hints
          cases hP : attrGet d (pstr "Parent")
          · exact ⟨LineKind.skip, rfl, fun _ _ _ _ hk => LineKind.noConfusion hk⟩
          · next p =>
            refine ⟨LineKind.child feature_type p start stop, rfl, ?_⟩
            intro ft par ss es hk
            cases hk
            exact hsome
      · rw [if_pos rfl]
        have hsome : (pyInt? start).isSome = true ∧ (pyInt? stop).isSome = true := by
          rw [hm] at hints
          simpa using hints
        cases hI : attrGet d (pstr "ID")
        · exact ⟨LineKind.skip, rfl, fun _ _ _ _ hk => LineKind.noConfusion hk⟩
        · next i =>
          cases hP : attrGet d (pstr "Parent")
          · exact ⟨LineKind.skip, rfl, fun _ _ _ _ hk => LineKind.noConfusion hk⟩
          · next p =>
            dsimp only
            cases htr : (i == ([] : PyStr) || p == ([] : PyStr))
            · rw [if_neg (by simp [htr])]
              obtain ⟨s, hs⟩ := Option.isSome_iff_exists.mp hsome.1
              obtain ⟨e, he⟩ := Option.isSome_iff_exists.mp hsome.2
              rw [show pyInt start = Except.ok s from by rw [pyInt, hs]]
              rw [show pyInt stop = Except.ok e from by rw [pyInt, he]]
              exact ⟨LineKind.mrna i p chrom s e strand, rfl,
                fun _ _ _ _ hk => LineKind.noConfusion hk⟩
            · rw [if_pos rfl]
              exact ⟨LineKind.skip, rfl, fun _ _ _ _ hk => LineKind.noConfusion hk⟩
  · rw [if_pos rfl]
    exact ⟨LineKind.skip, rfl, fun _ _ _ _ hk => LineKind.noConfusion hk⟩

theorem processLine_total (st : PyDict Transcript) (line : PyStr)
    (h : lineSafe line = true) : ∃ st', processLine st line = Except.ok st' := by
  obtain ⟨k, hk, hints⟩ := parseLine_safe line h
  rw [processLine, hk]
  cases k with
  | skip => exact ⟨st, rfl⟩
  | mrna i p chrom s e strand => exact ⟨_, rfl⟩
  | child ft par ss es =>
    dsimp only [Except.bind, applyLine]
    cases hhas : dictHas st par
    · rw [if_neg (by simp)]
      exact ⟨st, rfl⟩
    · rw [if_pos rfl]
      obtain ⟨his, hie⟩ := hints ft par ss es rfl
      obtain ⟨s, hs⟩ := Option.isSome_iff_exists.mp his
      obtain ⟨e, he⟩ := Option.isSome_iff_exists.mp hie
      rw [show pyInt ss = Except.ok s from by rw [pyInt, hs]]
      rw [show pyInt es = Except.ok e from by rw [pyInt, he]]
      exact ⟨_, rfl⟩

theorem processLines_total (lines : List PyStr) :
    ∀ st, (∀ l ∈ lines, lineSafe l = true) →
      ∃ m, processLines st lines = Except.ok m := by
  induction lines with
  | nil => intro st _; exact ⟨st, rfl⟩
  | cons l ls ih =>
    intro st hall
    obtain ⟨st', hst'⟩ := processLine_total st l (hall l (List.mem_cons_self _ _))
    obtain ⟨m, hm⟩ := ih st' (fun x hx => hall x (List.mem_cons_of_mem _ hx))
    rw [processLines, hst']
    exact ⟨m, hm⟩

/-- C3 (amended): the Feature-Model Builder returns normally on every file
whose lines are well formed in the `lineSafe` sense (attribute fragments
carry at most one `=`, coordinate fields of recognized feature types are
integers); comment lines, lines without exactly 9 tab-separated fields,
rows that parse to a skip (e.g. an `mRNA` missing `ID` or `Parent`), and
child rows with an unregistered parent leave the mapping unchanged rather
than reporting an error.  Without `lineSafe`, `int()` or attribute
unpacking can raise, as the companion counterexample shows. -/
theorem builder_failure_policy :
    (∀ lines : List PyStr, (∀ l ∈ lines, lineSafe l = true) →
      ∃ m, parse_gff3 lines = Except.ok m)
    ∧ (∀ (st : PyDict Transcript) (l : PyStr), isCommentLine l = true →
        processLine st l = Except.ok st)
    ∧ (∀ (st : PyDict Transcript) (l : PyStr), isCommentLine l = false →
        (pySplit '\t' (pyStrip l)).length ≠ 9 → processLine st l = Except.ok st)
    ∧ (∀ (st : PyDict Transcript) (l : PyStr),
        parseLine l = Except.ok LineKind.skip → processLine st l = Except.ok st)
    ∧ (∀ (st : PyDict Transcript) (ft par ss es : PyStr), dictHas st par = false →
        applyLine st (LineKind.child ft par ss es) = Except.ok st) := by
  refine ⟨fun lines h => processLines_total lines [] h, ?_, ?_, ?_, ?_⟩
  · intro st l h
    rw [processLine, parseLine, if_pos h]
    rfl
  · intro st l hc hlen
    rw [processLine, parseLine, if_neg (by simp [hc])]
    generalize hsp : pySplit '\t' (pyStrip l) = L at hlen ⊢
    match L with
    | [] => rfl
    | [a] => rfl
    | [a, b] => rfl
    | [a, b, c] => rfl
    | [a, b, c, d] => rfl
    | [a, b, c, d, e] => rfl
    | [a, b, c, d, e, f] => rfl
    | [a, b, c, d, e, f, g] => rfl
    | [a, b, c, d, e, f, g, h8] => rfl
    | [a, b, c, d, e, f, g, h8, i] => simp at hlen
    | a :: b :: c :: d :: e :: f :: g :: h8 :: i :: j :: rest => rfl
  · intro st l h
    rw [processLine, h]
    rfl
  · intro st ft par ss es h
    rw [applyLine, if_neg (by simp [h])]

/-- C3 counterexample: a 9-field `mRNA` row whose start coordinate is not
an integer makes `parse_gff3` raise `ValueError` instead of returning. -/
theorem builder_failure_policy_cex :
    parse_gff3 [pstr "chr1\tsrc\tmRNA\tx\t60\t.\t+\t.\tID=T1;Parent=G1"]
        = Except.error PyErr.valueError
    ∧ parse_gff3 [pstr "chr1\tsrc\tgene\t5\t60\t.\t+\t.\tID=a=b"]
        = Except.error PyErr.valueError := by
  exact ⟨by decide, by decide⟩

/-- Input lines exercising every silent-skip category plus one good row. -/
def c3lines : List PyStr :=
  [pstr "# a comment", pstr "too\tfew\tfields",
   pstr "chr1\tsrc\tmRNA\t5\t60\t.\t+\t.\tParent=G1",
   pstr "chr1\tsrc\texon\t5\t60\t.\t+\t.\tParent=TX",
   pstr "chr1\tsrc\tmRNA\t5\t60\t.\t+\t.\tID=T1;Parent=G1"]

/-- Witness for C3 at a concrete input: a file with all skip categories
still parses to a mapping. -/
theorem builder_failure_policy_witness :
    (∀ l ∈ c3lines, lineSafe l = true) ∧ ∃ m, parse_gff3 c3lines = Except.ok m :=
  ⟨by decide, builder_failure_policy.1 c3lines (by decide)⟩

/-! ### C9: the reports are a deterministic function of the inputs -/

theorem isEmpty_of_perm {α : Type} {l1 l2 : List α} (h : l1.Perm l2) :
    l1.isEmpty = l2.isEmpty := by
  have hl := h.length_eq
  cases l1 <;> cases l2 <;> simp_all

theorem classify_perm (l1 l2 : List (PyStr × PyStr)) (h : l1.Perm l2) :
    classify l1 = classify l2 := by
  have h2 : ((l1.map Prod.fst).filter (fun s => TRUSTED_SOURCES.contains s)).isEmpty
      = ((l2.map Prod.fst).filter (fun s => TRUSTED_SOURCES.contains s)).isEmpty :=
    isEmpty_of_perm ((h.map Prod.fst).filter _)
  unfold classify
  rw [isEmpty_of_perm h]
  split
  · rfl
  · dsimp only
    rw [h2]

theorem teCount_perm (l1 l2 : List (PyStr × PyStr)) (h : l1.Perm l2) :
    teCount l1 = teCount l2 := by
  unfold teCount
  exact (h.filter _).length_eq

theorem computeTranscript_perm (plens : PyDict Nat)
    (phits1 phits2 : PyDict (List (PyStr × PyStr))) (cov : PyDict ℚ)
    (hp : ∀ tid, (hitsFor phits1 tid).Perm (hitsFor phits2 tid)) :
    ∀ tid info, computeTranscript plens phits1 cov tid info
      = computeTranscript plens phits2 cov tid info := by
  intro tid info
  unfold computeTranscript
  dsimp only
  rw [classify_perm _ _ (hp tid), teCount_perm _ _ (hp tid)]

/-- C9: with the gene models, protein lengths and oracle coverage fixed,
the detailed and summary reports are a single deterministic function of
the inputs; in particular they do not depend on the iteration order of
the per-protein domain-hit sets, so two runs over identical inputs emit
identical reports. -/
theorem reports_deterministic (transcripts : PyDict Transcript) (plens : PyDict Nat)
    (phits1 phits2 : PyDict (List (PyStr × PyStr))) (cov : PyDict ℚ)
    (hp : ∀ tid, (hitsFor phits1 tid).Perm (hitsFor phits2 tid)) :
    buildReports transcripts plens phits1 cov = buildReports transcripts plens phits2 cov := by
  have hct := computeTranscript_perm plens phits1 phits2 cov hp
  have hrow : (fun (p : PyStr × Transcript) =>
        rowOf p.1 p.2 (computeTranscript plens phits1 cov p.1 p.2))
      = fun p => rowOf p.1 p.2 (computeTranscript plens phits2 cov p.1 p.2) :=
    funext fun p => by rw [hct p.1 p.2]
  have hstep : (fun (s : Summary) (p : PyStr × Transcript) =>
        updateSummary s (computeTranscript plens phits1 cov p.1 p.2))
      = fun s p => updateSummary s (computeTranscript plens phits2 cov p.1 p.2) :=
    funext fun s => funext fun p => by rw [hct p.1 p.2]
  unfold buildReports detailedReport finalSummary
  rw [hrow, hstep]

/-- Domain-hit index as one run's set iteration could materialize it. -/
def hitsRunA : PyDict (List (PyStr × PyStr)) :=
  [(pstr "T1", [(pstr "Pfam", pstr "IPR000477"), (pstr "X", pstr "IPR999999")])]

/-- The same index with the pair set iterated in the other order. -/
def hitsRunB : PyDict (List (PyStr × PyStr)) :=
  [(pstr "T1", [(pstr "X", pstr "IPR999999"), (pstr "Pfam", pstr "IPR000477")])]

/-- Witness for C9 at a concrete input: the two iteration orders of one
hit set produce identical reports. -/
theorem reports_deterministic_witness :
    (∀ tid, (hitsFor hitsRunA tid).Perm (hitsFor hitsRunB tid))
    ∧ buildReports dupState [] hitsRunA [] = buildReports dupState [] hitsRunB [] := by
  have hp : ∀ tid, (hitsFor hitsRunA tid).Perm (hitsFor hitsRunB tid) := by
    intro tid
    unfold hitsFor dictGet hitsRunA hitsRunB
    cases h : ((pstr "T1" : PyStr) == tid)
    · simp [List.find?, h]
    · simp [List.find?, h]
      exact List.Perm.swap _ _ _
  exact ⟨hp, reports_deterministic dupState [] hitsRunA hitsRunB [] hp⟩

/-! ### C4: the T1 detailed-row scenario -/

/-- Gene-model lines declaring `T1` with one exon, one coding segment
`(10,39)` and no UTRs. -/
def c4lines : List PyStr :=
  [pstr "chr1\tsrc\tmRNA\t5\t60\t.\t+\t.\tID=T1;Parent=G1",
   pstr "chr1\tsrc\texon\t5\t60\t.\t+\t.\tParent=T1",
   pstr "chr1\tsrc\tCDS\t10\t39\t.\t+\t.\tParent=T1"]

/-- The transcript mapping `c4lines` parses to. -/
def c4map : PyDict Transcript :=
  [(pstr "T1", ⟨pstr "G1", pstr "chr1", 5, 60, pstr "+", [(5, 60)], [(10, 39)], [], []⟩)]

/-- Oracle output reporting coverage 0.0 for `T1`. -/
def c4cov : PyDict ℚ := [(pstr "T1", 0)]

theorem pyRound3_zero : pyRound3 0 = 0 := by
  norm_num [pyRound3, roundHalfEven]

/-- C4 counterexample: in the emitted detailed row the cell under the
`In_Repeat` header is the rounded repeat fraction `0.0` (a number), not
the boolean `False` the claim states. -/
theorem detailed_row_scenario_cex :
    headerRow.get? 10 = some (Cell.s (pstr "In_Repeat"))
    ∧ (detailedReport c4map [] [] c4cov).get? 1
        = some (rowOf (pstr "T1") (c4map.get ⟨0, by decide⟩).2
            (computeTranscript [] [] c4cov (pstr "T1") (c4map.get ⟨0, by decide⟩).2))
    ∧ (rowOf (pstr "T1") (c4map.get ⟨0, by decide⟩).2
          (computeTranscript [] [] c4cov (pstr "T1") (c4map.get ⟨0, by decide⟩).2)).get? 10
        = some (Cell.q (pyRound3 0))
    ∧ Cell.q (pyRound3 0) ≠ Cell.b false := by
  refine ⟨rfl, rfl, rfl, ?_⟩
  intro h
  exact Cell.noConfusion h

/-- C4 (amended): for the `T1` scenario the detailed row has
`ExonCount=1`, `SingleExon=True`, `CDS_Length=30`, `Protein_Length=0`,
`High_Confidence=False`, `Low_Confidence=False`, `No_Annotation=True`,
`Has_5UTR=False`, `Has_3UTR=False`, `TE_Domain_Count=0`, and the cell in
the `In_Repeat` column carries the rounded repeat fraction `0.0` (the
boolean in-repeat flag, which is indeed false, is not what is emitted
there). -/
theorem detailed_row_scenario :
    parse_gff3 c4lines = Except.ok c4map
    ∧ (computeTranscript [] [] c4cov (pstr "T1")
        (c4map.get ⟨0, by decide⟩).2).in_repeat = false
    ∧ detailedReport c4map [] [] c4cov =
        [headerRow,
         [Cell.s (pstr "T1"), Cell.s (pstr "G1"), Cell.s (pstr "chr1"),
          Cell.i 5, Cell.i 60, Cell.s (pstr "+"), Cell.n 1, Cell.b true,
          Cell.i 30, Cell.n 0, Cell.q 0, Cell.b false, Cell.b false,
          Cell.b true, Cell.b false, Cell.b false, Cell.n 0]] := by
  refine ⟨by decide, ?_, ?_⟩
  · show decide ((0 : ℚ) > 1 / 2) = false
    rw [decide_eq_false_iff_not]
    norm_num
  · have h : detailedReport c4map [] [] c4cov =
        [headerRow,
         [Cell.s (pstr "T1"), Cell.s (pstr "G1"), Cell.s (pstr "chr1"),
          Cell.i 5, Cell.i 60, Cell.s (pstr "+"), Cell.n 1, Cell.b true,
          Cell.i 30, Cell.n 0, Cell.q (pyRound3 0), Cell.b false, Cell.b false,
          Cell.b true, Cell.b false, Cell.b false, Cell.n 0]] := rfl
    rw [h, pyRound3_zero]

/-! ### C7: intervals versus the owning transcript's span -/

/-- All intervals stored in one transcript record. -/
def allIntervals (t : Transcript) : List (Int × Int) :=
  t.Exons ++ t.CDS ++ t.UTR5 ++ t.UTR3

/-- Input-level nesting check between two lines: whenever the first parses
to an `mRNA` declaration and the second to a child row of the same ID with
integer coordinates, the child interval lies within the declared span. -/
def childWithin (l1 l2 : PyStr) : Bool :=
  match parseLine l1, parseLine l2 with
  | Except.ok (LineKind.mrna i _ _ s e _), Except.ok (LineKind.child _ par ss es) =>
    if i == par then
      match pyInt? ss, pyInt? es with
      | some a, some b => decide (s ≤ a ∧ b ≤ e)
      | _, _ => true
    else true
  | _, _ => true

theorem pyInt_eq_ok {s : PyStr} {n : Int} (h : pyInt? s = some n) :
    pyInt s = Except.ok n := by
  unfold pyInt
  rw [h]

theorem pyInt_eq_error {s : PyStr} (h : pyInt? s = none) :
    pyInt s = Except.error PyErr.valueError := by
  unfold pyInt
  rw [h]

theorem mem_dictSet {α : Type} {d : PyDict α} {k : PyStr} {v : α} {p : PyStr × α}
    (h : p ∈ dictSet d k v) : p = (k, v) ∨ p ∈ d := by
  rw [dictSet] at h
  split at h
  · obtain ⟨q, hq, hqe⟩ := List.mem_map.mp h
    by_cases hk : (q.1 == k) = true
    · rw [if_pos hk] at hqe
      exact Or.inl hqe.symm
    · rw [if_neg hk] at hqe
      exact Or.inr (hqe ▸ hq)
  · rcases List.mem_append.mp h with hmem | hmem
    · exact Or.inr hmem
    · exact Or.inl (by simpa using hmem)

theorem mem_dictUpdate {α : Type} {d : PyDict α} {k : PyStr} {f : α → α} {p : PyStr × α}
    (h : p ∈ dictUpdate d k f) :
    p ∈ d ∨ ∃ q ∈ d, (q.1 == k) = true ∧ p = (q.1, f q.2) := by
  rw [dictUpdate] at h
  obtain ⟨q, hq, hqe⟩ := List.mem_map.mp h
  by_cases hk : (q.1 == k) = true
  · rw [if_pos hk] at hqe
    exact Or.inr ⟨q, hq, hk, hqe.symm⟩
  · rw [if_neg hk] at hqe
    exact Or.inl (hqe ▸ hq)

theorem addInterval_Start (t : Transcript) (ft : PyStr) (iv : Int × Int) :
    (addInterval t ft iv).Start = t.Start := by
  rw [addInterval]
  split_ifs <;> rfl

theorem addInterval_End (t : Transcript) (ft : PyStr) (iv : Int × Int) :
    (addInterval t ft iv).End = t.End := by
  rw [addInterval]
  split_ifs <;> rfl

theorem mem_allIntervals_addInterval {t : Transcript} {ft : PyStr} {iv iv' : Int × Int}
    (h : iv' ∈ allIntervals (addInterval t ft iv)) :
    iv' = iv ∨ iv' ∈ allIntervals t := by
  rw [allIntervals, addInterval] at h
  rw [allIntervals]
  split_ifs at h <;> simp only [List.mem_append, List.mem_singleton] at h ⊢ <;> tauto

/-- Provenance of one dict entry: its span was declared by some `mRNA`
line of the input, and every stored interval came from some child line of
the input for the same ID, with those integer coordinates. -/
def originates (lines : List PyStr) (tid : PyStr) (t : Transcript) : Prop :=
  (∃ l ∈ lines, ∃ par chrom strand, parseLine l
      = Except.ok (LineKind.mrna tid par chrom t.Start t.End strand))
  ∧ ∀ iv ∈ allIntervals t, ∃ l ∈ lines, ∃ ft ss es,
      parseLine l = Except.ok (LineKind.child ft tid ss es)
      ∧ pyInt? ss = some iv.1 ∧ pyInt? es = some iv.2

theorem processLine_originates (lines : List PyStr) (st : PyDict Transcript)
    (l : PyStr) (st' : PyDict Transcript) (hl : l ∈ lines)
    (hinv : ∀ p ∈ st, originates lines p.1 p.2)
    (hrun : processLine st l = Except.ok st') :
    ∀ p ∈ st', originates lines p.1 p.2 := by
  rw [processLine] at hrun
  cases hpl : parseLine l with
  | error err =>
    rw [hpl] at hrun
    exact Except.noConfusion hrun
  | ok k =>
    rw [hpl] at hrun
    cases k with
    | skip =>
      dsimp only [Except.bind, applyLine] at hrun
      injection hrun with h
      subst h
      exact hinv
    | mrna i par chrom s e strand =>
      dsimp only [Except.bind, applyLine] at hrun
      injection hrun with h
      subst h
      intro p hp
      rcases mem_dictSet hp with hfresh | hmem
      · subst hfresh
        constructor
        · exact ⟨l, hl, par, chrom, strand, hpl⟩
        · intro iv hiv
          simp [allIntervals, freshTranscript] at hiv
      · exact hinv p hmem
    | child ft par ss es =>
      dsimp only [Except.bind, applyLine] at hrun
      by_cases hhas : dictHas st par = true
      · rw [if_pos hhas] at hrun
        cases hss : pyInt? ss with
        | none =>
          rw [pyInt_eq_error hss] at hrun
          exact Except.noConfusion hrun
        | some a =>
          rw [pyInt_eq_ok hss] at hrun
          dsimp only [Except.bind] at hrun
          cases hes : pyInt? es with
          | none =>
            rw [pyInt_eq_error hes] at hrun
            exact Except.noConfusion hrun
          | some b =>
            rw [pyInt_eq_ok hes] at hrun
            dsimp only [Except.map] at hrun
            injection hrun with h
            subst h
            intro p hp
            rcases mem_dictUpdate hp with hmem | ⟨q, hq, hkq, hpe⟩
            · exact hinv p hmem
            · subst hpe
              have hq1 : q.1 = par := eq_of_beq hkq
              obtain ⟨⟨l0, hl0, par0, c0, st0, hpl0⟩, horig_iv⟩ := hinv q hq
              constructor
              · refine ⟨l0, hl0, par0, c0, st0, ?_⟩
                rw [addInterval_Start, addInterval_End]
                exact hpl0
              · intro iv hiv
                rcases mem_allIntervals_addInterval hiv with hnew | hold
                · subst hnew
                  refine ⟨l, hl, ft, ss, es, ?_, hss, hes⟩
                  rw [hq1]
                  exact hpl
                · exact horig_iv iv hold
      · rw [if_neg hhas] at hrun
        injection hrun with h
        subst h
        exact hinv

theorem processLines_originates (lines : List PyStr) :
    ∀ (ls : List PyStr) (st m : PyDict Transcript), (∀ l ∈ ls, l ∈ lines) →
      (∀ p ∈ st, originates lines p.1 p.2) →
      processLines st ls = Except.ok m → ∀ p ∈ m, originates lines p.1 p.2 := by
  intro ls
  induction ls with
  | nil =>
    intro st m _ hinv hrun
    rw [processLines] at hrun
    injection hrun with h
    subst h
    exact hinv
  | cons l ls ih =>
    intro st m hsub hinv hrun
    rw [processLines] at hrun
    cases hst : processLine st l with
    | error e =>
      rw [hst] at hrun
      exact Except.noConfusion hrun
    | ok st1 =>
      rw [hst] at hrun
      have h1 := processLine_originates lines st l st1
        (hsub l (List.mem_cons_self _ _)) hinv hst
      exact ih st1 m (fun x hx => hsub x (List.mem_cons_of_mem _ hx)) h1 hrun

/-- C7 (amended): the builder stores child intervals verbatim without any
containment check; whenever the input itself nests every child row inside
every same-ID `mRNA` declaration (`childWithin`), each interval of the
resulting mapping lies within the `[Start, End]` span of its owning
transcript — and the companion counterexample shows the invariant fails
on inputs that violate that nesting. -/
theorem intervals_within_span (lines : List PyStr) (m : PyDict Transcript)
    (hW : ∀ l1 ∈ lines, ∀ l2 ∈ lines, childWithin l1 l2 = true)
    (hok : parse_gff3 lines = Except.ok m) :
    ∀ p ∈ m, ∀ iv ∈ allIntervals p.2, p.2.Start ≤ iv.1 ∧ iv.2 ≤ p.2.End := by
  have horig := processLines_originates lines lines [] m (fun _ h => h)
    (by intro p hp; cases hp) hok
  intro p hp iv hiv
  obtain ⟨⟨l1, hl1, par, chrom, strand, h1⟩, hiv_all⟩ := horig p hp
  obtain ⟨l2, hl2, ft, ss, es, h2, hss, hes⟩ := hiv_all iv hiv
  have hw := hW l1 hl1 l2 hl2
  rw [childWithin, h1, h2] at hw
  dsimp only at hw
  rw [if_pos (beq_self_eq_true p.1)] at hw
  rw [hss, hes] at hw
  dsimp only at hw
  exact of_decide_eq_true hw

/-- Gene-model file whose exon lies outside its transcript's span. -/
def c7lines : List PyStr :=
  [pstr "chr1\tsrc\tmRNA\t100\t200\t.\t+\t.\tID=T1;Parent=G1",
   pstr "chr1\tsrc\texon\t1\t50\t.\t+\t.\tParent=T1"]

/-- C7 counterexample: the builder happily returns a transcript with span
`[100, 200]` holding the exon `(1, 50)`, so the invariant fails as a
property of every produced Transcript. -/
theorem intervals_within_span_cex :
    parse_gff3 c7lines = Except.ok
      [(pstr "T1", ⟨pstr "G1", pstr "chr1", 100, 200, pstr "+", [(1, 50)], [], [], []⟩)]
    ∧ (1, 50) ∈ allIntervals
        ⟨pstr "G1", pstr "chr1", 100, 200, pstr "+", [(1, 50)], [], [], []⟩
    ∧ ¬((100 : Int) ≤ 1) := by decide

/-- Well-nested gene-model file for the C7 witness. -/
def w7lines : List PyStr :=
  [pstr "chr1\tsrc\tmRNA\t5\t60\t.\t+\t.\tID=T1;Parent=G1",
   pstr "chr1\tsrc\texon\t5\t60\t.\t+\t.\tParent=T1",
   pstr "chr1\tsrc\tCDS\t10\t39\t.\t+\t.\tParent=T1"]

/-- The mapping `w7lines` parses to. -/
def w7map : PyDict Transcript :=
  [(pstr "T1", ⟨pstr "G1", pstr "chr1", 5, 60, pstr "+", [(5, 60)], [(10, 39)], [], []⟩)]

/-- Witness for C7 at a concrete input: a well-nested file satisfies the
span invariant. -/
theorem intervals_within_span_witness :
    (∀ l1 ∈ w7lines, ∀ l2 ∈ w7lines, childWithin l1 l2 = true)
    ∧ ∀ p ∈ w7map, ∀ iv ∈ allIntervals p.2, p.2.Start ≤ iv.1 ∧ iv.2 ≤ p.2.End :=
  ⟨by decide, intervals_within_span w7lines w7map (by decide) (by decide)⟩
